import Mathlib

/-!
Verification of the event-extraction and dictionary-key-derivation core of a
CEP47 helper module (source: `src/unnamed/part_000`).

The two operations under study are:

* `getDictionaryKeyHash` (source lines 223-232): derives the dictionary storage
  key for an event id from a formatted seed URef string, via a 32-byte BLAKE2b
  digest of the URef's raw address bytes concatenated with the id's UTF-8 bytes.

* `parseEvent` (source lines 128-179): scans the transform log of a completed
  deploy and extracts the CEP47 events matching a subscription
  (`contractPackageHash`, `eventNames`, `eventsURef`).

Bytes are modelled as `List Nat` (each element a value 0..255).  JavaScript
exceptions thrown inside these functions (e.g. `Result.unwrap()` on a decode
error, or `CLURef.fromFormattedStr` on a malformed reference) are modelled with
`Except String`: `Except.error` is a thrown exception, `Except.ok` a normal
return.

External collaborators (the `casper-js-sdk` typed-value decoder and URef
formatting, the `blakejs` hash, Node's `Buffer`) are not part of this
repository; they are modelled here faithfully to their documented wire formats
and behaviour, at the granularity the specification describes them
(specification sections 4.1 and 6).
-/

set_option maxRecDepth 40000

/-! ## Byte-level utilities (model of Node `Buffer` conversions) -/

/-- One hexadecimal digit of `Buffer.from(s, "hex")`: value of a hex char. -/
def hexVal (c : Char) : Option Nat :=
  if 48 ≤ c.toNat ∧ c.toNat ≤ 57 then some (c.toNat - 48)
  else if 97 ≤ c.toNat ∧ c.toNat ≤ 102 then some (c.toNat - 87)
  else if 65 ≤ c.toNat ∧ c.toNat ≤ 70 then some (c.toNat - 55)
  else none

/-- Pairwise hex decoding; like `Buffer.from(s, "hex")` it stops at the first
invalid pair (and drops a trailing lone digit). -/
def hexPairsGo : List Char → List Nat
  | c1 :: c2 :: rest =>
    match hexVal c1, hexVal c2 with
    | some a, some b => (16 * a + b) :: hexPairsGo rest
    | _, _ => []
  | _ => []

/-- Model of `Buffer.from(s, "hex")`. -/
def bufferFromHex (s : String) : List Nat := hexPairsGo s.data

/-- Is `p` a leading piece of `cs` (character-wise). -/
def charsStartWith : List Char → List Char → Bool
  | _, [] => true
  | [], _ :: _ => false
  | c :: cs, p :: ps => c == p && charsStartWith cs ps

/-- Model of JavaScript `s.startsWith(p)`. -/
def strStartsWith (s p : String) : Bool := charsStartWith s.data p.data

/-- Model of JavaScript `s.split("-")`: the groups of characters between the
dashes (an empty string yields one empty group, as in JavaScript). -/
def splitOnDash : List Char → List (List Char)
  | [] => [[]]
  | c :: cs =>
    if c = '-' then [] :: splitOnDash cs
    else
      match splitOnDash cs with
      | [] => [[c]]
      | g :: gs => (c :: g) :: gs

/-- UTF-8 encoding of one code point. -/
def utf8CharBytes (c : Nat) : List Nat :=
  if c < 128 then [c]
  else if c < 2048 then [192 + c / 64, 128 + c % 64]
  else if c < 65536 then [224 + c / 4096, 128 + c / 64 % 64, 128 + c % 64]
  else [240 + c / 262144, 128 + c / 4096 % 64, 128 + c / 64 % 64, 128 + c % 64]

/-- Model of `Buffer.from(s)` (UTF-8 encoding of a string). -/
def strBytes (s : String) : List Nat := s.data.flatMap (fun ch => utf8CharBytes ch.toNat)

/-- Is `b` a UTF-8 continuation byte. -/
def contByte (b : Nat) : Bool := 128 ≤ b && b < 192

/-- Lenient UTF-8 decoding (model of `TextDecoder` with its default non-fatal
mode): malformed bytes turn into U+FFFD replacement characters rather than
failing.  On a malformed sequence this model consumes the examined bytes and
emits one replacement character; the exact resynchronization of `TextDecoder`
is not modelled (no string this module decodes is malformed). -/
def utf8DecodeGo : List Nat → List Char
  | [] => []
  | b :: rest =>
    if b < 128 then Char.ofNat b :: utf8DecodeGo rest
    else if 194 ≤ b ∧ b ≤ 223 then
      match rest with
      | b2 :: r2 =>
        if contByte b2 then Char.ofNat ((b - 192) * 64 + (b2 - 128)) :: utf8DecodeGo r2
        else Char.ofNat 65533 :: utf8DecodeGo r2
      | [] => [Char.ofNat 65533]
    else if 224 ≤ b ∧ b ≤ 239 then
      match rest with
      | b2 :: b3 :: r3 =>
        if contByte b2 && contByte b3 then
          Char.ofNat ((b - 224) * 4096 + (b2 - 128) * 64 + (b3 - 128)) :: utf8DecodeGo r3
        else Char.ofNat 65533 :: utf8DecodeGo r3
      | _ => [Char.ofNat 65533]
    else if 240 ≤ b ∧ b ≤ 244 then
      match rest with
      | b2 :: b3 :: b4 :: r4 =>
        if contByte b2 && contByte b3 && contByte b4 then
          Char.ofNat ((b - 240) * 262144 + (b2 - 128) * 4096 + (b3 - 128) * 64 + (b4 - 128))
            :: utf8DecodeGo r4
        else Char.ofNat 65533 :: utf8DecodeGo r4
      | _ => [Char.ofNat 65533]
    else Char.ofNat 65533 :: utf8DecodeGo rest

/-- UTF-8 decoding of a byte list into a string. -/
def utf8DecodeStr (bs : List Nat) : String := String.mk (utf8DecodeGo bs)

/-- Lowercase hex digit, as in `Buffer.prototype.toString("hex")`. -/
def hexDigit (n : Nat) : Char :=
  if n < 10 then Char.ofNat (48 + n) else Char.ofNat (87 + n)

/-- Model of `Buffer.from(bs).toString("hex")`: lowercase hex rendering. -/
def toHex (bs : List Nat) : String :=
  String.mk (bs.flatMap (fun b => [hexDigit (b / 16), hexDigit (b % 16)]))

/-! ## BLAKE2b-256 (model of `blake.blake2b(input, undefined, 32)` from blakejs)

The implementation follows RFC 7693 with the rounds unrolled (the twelve
sigma-permutation rows are written out literally).  64-bit words are `Nat`
values reduced mod `2^64`. -/

/-- 2^64, the modulus for 64-bit words. -/
def MOD64 : Nat := 18446744073709551616

/-- 64-bit wrapping addition. -/
def add64 (a b : Nat) : Nat := (a + b) % MOD64

/-- 64-bit right rotation (inputs assumed < 2^64). -/
def rotr64 (x n : Nat) : Nat :=
  (x >>> n) ||| ((x <<< (64 - n)) % MOD64)

/-- The 16-word working vector of the BLAKE2b compression function. -/
structure V16 where
  x0 : Nat
  x1 : Nat
  x2 : Nat
  x3 : Nat
  x4 : Nat
  x5 : Nat
  x6 : Nat
  x7 : Nat
  x8 : Nat
  x9 : Nat
  x10 : Nat
  x11 : Nat
  x12 : Nat
  x13 : Nat
  x14 : Nat
  x15 : Nat

/-- The 8-word BLAKE2b state. -/
structure H8 where
  h0 : Nat
  h1 : Nat
  h2 : Nat
  h3 : Nat
  h4 : Nat
  h5 : Nat
  h6 : Nat
  h7 : Nat

/-- The BLAKE2b G mixing function on one column or diagonal `(a, b, c, d)`
with message words `x, y`; returns the updated `(a, b, c, d)`. -/
def quarter (a b c d x y : Nat) : Nat × Nat × Nat × Nat :=
  let a1 := add64 (add64 a b) x
  let d1 := rotr64 (d ^^^ a1) 32
  let c1 := add64 c d1
  let b1 := rotr64 (b ^^^ c1) 24
  let a2 := add64 (add64 a1 b1) y
  let d2 := rotr64 (d1 ^^^ a2) 16
  let c2 := add64 c1 d2
  let b2 := rotr64 (b1 ^^^ c2) 63
  (a2, b2, c2, d2)

/-- One BLAKE2b round: the four column G calls then the four diagonal G calls.
`w0 .. w15` are the message words already permuted by the round's sigma row. -/
def blakeRound (v : V16)
    (w0 w1 w2 w3 w4 w5 w6 w7 w8 w9 w10 w11 w12 w13 w14 w15 : Nat) : V16 :=
  let (a0, b0, c0, d0) := quarter v.x0 v.x4 v.x8 v.x12 w0 w1
  let (a1, b1, c1, d1) := quarter v.x1 v.x5 v.x9 v.x13 w2 w3
  let (a2, b2, c2, d2) := quarter v.x2 v.x6 v.x10 v.x14 w4 w5
  let (a3, b3, c3, d3) := quarter v.x3 v.x7 v.x11 v.x15 w6 w7
  let (e0, f1, g2, h3) := quarter a0 b1 c2 d3 w8 w9
  let (e1, f2, g3, h0) := quarter a1 b2 c3 d0 w10 w11
  let (e2, f3, g0, h1) := quarter a2 b3 c0 d1 w12 w13
  let (e3, f0, g1, h2) := quarter a3 b0 c1 d2 w14 w15
  ⟨e0, e1, e2, e3, f0, f1, f2, f3, g0, g1, g2, g3, h0, h1, h2, h3⟩

/-- Little-endian value of a byte list. -/
def le64 (bs : List Nat) : Nat := bs.foldr (fun b acc => b + 256 * acc) 0

/-- Message word `i` (little-endian) of a 128-byte block. -/
def mword (block : List Nat) (i : Nat) : Nat := le64 ((block.drop (8 * i)).take 8)

/-- The BLAKE2b compression function `F(h, block, t, last)`, twelve rounds with
the sigma rows of RFC 7693 written out (rows 10 and 11 repeat rows 0 and 1). -/
def blakeCompress (h : H8) (block : List Nat) (t : Nat) (last : Bool) : H8 :=
  let m := fun (i : Nat) => mword block i
  let v : V16 :=
    ⟨h.h0, h.h1, h.h2, h.h3, h.h4, h.h5, h.h6, h.h7,
     0x6a09e667f3bcc908, 0xbb67ae8584caa73b, 0x3c6ef372fe94f82b, 0xa54ff53a5f1d36f1,
     0x510e527fade682d1 ^^^ (t % MOD64),
     0x9b05688c2b3e6c1f ^^^ (t / MOD64 % MOD64),
     if last then 0x1f83d9abfb41bd6b ^^^ (MOD64 - 1) else 0x1f83d9abfb41bd6b,
     0x5be0cd19137e2179⟩
  let v1 := blakeRound v (m 0) (m 1) (m 2) (m 3) (m 4) (m 5) (m 6) (m 7) (m 8) (m 9) (m 10) (m 11) (m 12) (m 13) (m 14) (m 15)
  let v2 := blakeRound v1 (m 14) (m 10) (m 4) (m 8) (m 9) (m 15) (m 13) (m 6) (m 1) (m 12) (m 0) (m 2) (m 11) (m 7) (m 5) (m 3)
  let v3 := blakeRound v2 (m 11) (m 8) (m 12) (m 0) (m 5) (m 2) (m 15) (m 13) (m 10) (m 14) (m 3) (m 6) (m 7) (m 1) (m 9) (m 4)
  let v4 := blakeRound v3 (m 7) (m 9) (m 3) (m 1) (m 13) (m 12) (m 11) (m 14) (m 2) (m 6) (m 5) (m 10) (m 4) (m 0) (m 15) (m 8)
  let v5 := blakeRound v4 (m 9) (m 0) (m 5) (m 7) (m 2) (m 4) (m 10) (m 15) (m 14) (m 1) (m 11) (m 12) (m 6) (m 8) (m 3) (m 13)
  let v6 := blakeRound v5 (m 2) (m 12) (m 6) (m 10) (m 0) (m 11) (m 8) (m 3) (m 4) (m 13) (m 7) (m 5) (m 15) (m 14) (m 1) (m 9)
  let v7 := blakeRound v6 (m 12) (m 5) (m 1) (m 15) (m 14) (m 13) (m 4) (m 10) (m 0) (m 7) (m 6) (m 3) (m 9) (m 2) (m 8) (m 11)
  let v8 := blakeRound v7 (m 13) (m 11) (m 7) (m 14) (m 12) (m 1) (m 3) (m 9) (m 5) (m 0) (m 15) (m 4) (m 8) (m 6) (m 2) (m 10)
  let v9 := blakeRound v8 (m 6) (m 15) (m 14) (m 9) (m 11) (m 3) (m 0) (m 8) (m 12) (m 2) (m 13) (m 7) (m 1) (m 4) (m 10) (m 5)
  let v10 := blakeRound v9 (m 10) (m 2) (m 8) (m 4) (m 7) (m 6) (m 1) (m 5) (m 15) (m 11) (m 9) (m 14) (m 3) (m 12) (m 13) (m 0)
  let v11 := blakeRound v10 (m 0) (m 1) (m 2) (m 3) (m 4) (m 5) (m 6) (m 7) (m 8) (m 9) (m 10) (m 11) (m 12) (m 13) (m 14) (m 15)
  let v12 := blakeRound v11 (m 14) (m 10) (m 4) (m 8) (m 9) (m 15) (m 13) (m 6) (m 1) (m 12) (m 0) (m 2) (m 11) (m 7) (m 5) (m 3)
  ⟨h.h0 ^^^ v12.x0 ^^^ v12.x8, h.h1 ^^^ v12.x1 ^^^ v12.x9,
   h.h2 ^^^ v12.x2 ^^^ v12.x10, h.h3 ^^^ v12.x3 ^^^ v12.x11,
   h.h4 ^^^ v12.x4 ^^^ v12.x12, h.h5 ^^^ v12.x5 ^^^ v12.x13,
   h.h6 ^^^ v12.x6 ^^^ v12.x14, h.h7 ^^^ v12.x7 ^^^ v12.x15⟩

/-- Initial state for an unkeyed BLAKE2b with 32-byte output:
`IV0 xor 0x01010000 xor outlen` with `outlen = 32`. -/
def blake2bInitH : H8 :=
  ⟨0x6a09e667f3bcc908 ^^^ 0x01010020, 0xbb67ae8584caa73b, 0x3c6ef372fe94f82b,
   0xa54ff53a5f1d36f1, 0x510e527fade682d1, 0x9b05688c2b3e6c1f,
   0x1f83d9abfb41bd6b, 0x5be0cd19137e2179⟩

/-- Zero-pad a final block to 128 bytes. -/
def pad128 (c : List Nat) : List Nat := c ++ List.replicate (128 - c.length) 0

/-- Split into 128-byte blocks, the last block holding the remaining 0..128
bytes.  `fuel` bounds the recursion; `chunk128` supplies enough. -/
def chunk128Go (fuel : Nat) (l : List Nat) : List (List Nat) :=
  match fuel with
  | 0 => [l]
  | f + 1 => if l.length ≤ 128 then [l] else l.take 128 :: chunk128Go f (l.drop 128)

/-- Split a byte list into BLAKE2b blocks (a sole, possibly empty, final block
when the input has at most 128 bytes). -/
def chunk128 (l : List Nat) : List (List Nat) := chunk128Go l.length l

/-- Compress all blocks: every block but the last with `last = false` and the
running byte count, the final padded block with `last = true` and the total
input length, exactly as blakejs does. -/
def blakeLoop (h : H8) (done : Nat) : List (List Nat) → H8
  | [] => h
  | [c] => blakeCompress h (pad128 c) (done + c.length) true
  | c :: c2 :: rest =>
      blakeLoop (blakeCompress h c (done + 128) false) (done + 128) (c2 :: rest)

/-- The eight little-endian bytes of a 64-bit word. -/
def wordBytes (w : Nat) : List Nat :=
  [w % 256, (w >>> 8) % 256, (w >>> 16) % 256, (w >>> 24) % 256,
   (w >>> 32) % 256, (w >>> 40) % 256, (w >>> 48) % 256, (w >>> 56) % 256]

/-- BLAKE2b with a 32-byte digest: model of `blake.blake2b(input, undefined, 32)`.
The digest is the first 32 bytes (four words) of the final state, little-endian. -/
def blake2b256 (input : List Nat) : List Nat :=
  let hf := blakeLoop blake2bInitH 0 (chunk128 input)
  wordBytes hf.h0 ++ wordBytes hf.h1 ++ wordBytes hf.h2 ++ wordBytes hf.h3

/-! ## Seed-reference decoding and `getDictionaryKeyHash` -/

/-- Model of the external reference-formatting collaborator
`CLURef.fromFormattedStr` (specification sections 4.1 and 6): a formatted seed
reference is `"uref-"`, the hex rendering of the 32 raw address bytes, `"-"`,
and an access-rights suffix.  Returns the raw address bytes
(`uref.value().data` in the source); a malformed reference throws.  -/
def urefFromFormattedStr (input : String) : Except String (List Nat) :=
  if strStartsWith input "uref-" then
    match splitOnDash (input.data.drop 5) with
    | p0 :: _ :: _ =>
      let addr := hexPairsGo p0
      if addr.length = 32 then Except.ok addr
      else Except.error "The length of URefAddr should be 32"
    | _ => Except.error "No access rights as suffix"
  else Except.error "Prefix is not uref-"

/-- Embedding of `getDictionaryKeyHash` (source lines 223-232):
decode the formatted URef, take its raw address bytes, append the UTF-8 bytes
of `id`, hash with 32-byte BLAKE2b, render as lowercase hex and prefix
`"dictionary-"`.  An invalid `uref` string throws (modelled as `Except.error`). -/
def getDictionaryKeyHash (uref : String) (id : String) : Except String String :=
  match urefFromFormattedStr uref with
  | Except.error e => Except.error e
  | Except.ok eventsUrefBytes =>
    let idNum := strBytes id
    let finalBytes := eventsUrefBytes ++ idNum
    let blaked := blake2b256 finalBytes
    let str := toHex blaked
    Except.ok ("dictionary-" ++ str)

/-- The derivation algorithm as the specification words it (section 4.1):
concatenate the seed reference's raw identifier bytes with the raw bytes of the
event id (seed bytes first, no separator, no length prefix), take the 32-byte
BLAKE2b digest, render it as lowercase hexadecimal, and prefix the literal
string `"dictionary-"`. -/
def deriveKeySpecAlg (seedRefBytes : List Nat) (eventId : String) : String :=
  "dictionary-" ++ toHex (blake2b256 (seedRefBytes ++ strBytes eventId))

/-! ## The typed-value decoder (model of the external `casper-js-sdk` collaborator)

`CLValueParsers.fromBytesWithType` reads a `u32` little-endian length prefix,
that many value bytes, and then a serialized type tag; the value bytes are
decoded according to the type.  Only the types this module's event path can
meet are modelled (`String` tag 10, `U8` tag 3, `Unit` tag 9, `Option` tag 13,
`Map` tag 17); an unknown tag or truncated input is a decode error, which the
source turns into a thrown exception via `.unwrap()`. -/

/-- The modelled fragment of the CLType grammar. -/
inductive CLTypeM
  | string : CLTypeM
  | u8 : CLTypeM
  | unit : CLTypeM
  | option : CLTypeM → CLTypeM
  | map : CLTypeM → CLTypeM → CLTypeM

/-- The modelled fragment of decoded typed values.  `opt` is a decoded
`CLOption`, `map` a decoded `CLMap` given by its entry list in wire order. -/
inductive CLValue
  | str : String → CLValue
  | u8 : Nat → CLValue
  | unit : CLValue
  | opt : Option CLValue → CLValue
  | map : List (CLValue × CLValue) → CLValue

/-- Read a little-endian `u32`. -/
def readU32 : List Nat → Except String (Nat × List Nat)
  | a :: b :: c :: d :: r =>
    Except.ok (a + 256 * b + 65536 * c + 16777216 * d, r)
  | _ => Except.error "Early end of stream"

/-- Take exactly `n` bytes. -/
def takeExact : Nat → List Nat → Except String (List Nat × List Nat)
  | 0, bs => Except.ok ([], bs)
  | _ + 1, [] => Except.error "Early end of stream"
  | n + 1, b :: bs =>
    match takeExact n bs with
    | Except.ok (xs, r) => Except.ok (b :: xs, r)
    | Except.error e => Except.error e

/-- Parse a serialized CLType.  `fuel` bounds the nesting depth; every
recursive call consumes at least the one tag byte, so the fuel supplied by
`parseClType` is never exhausted. -/
def parseClTypeGo : Nat → List Nat → Except String (CLTypeM × List Nat)
  | 0, _ => Except.error "Unknown CLType tag"
  | fuel + 1, bs =>
    match bs with
    | 10 :: r => Except.ok (CLTypeM.string, r)
    | 3 :: r => Except.ok (CLTypeM.u8, r)
    | 9 :: r => Except.ok (CLTypeM.unit, r)
    | 13 :: r =>
      match parseClTypeGo fuel r with
      | Except.ok (t, r2) => Except.ok (CLTypeM.option t, r2)
      | Except.error e => Except.error e
    | 17 :: r =>
      match parseClTypeGo fuel r with
      | Except.ok (kt, r2) =>
        match parseClTypeGo fuel r2 with
        | Except.ok (vt, r3) => Except.ok (CLTypeM.map kt vt, r3)
        | Except.error e => Except.error e
      | Except.error e => Except.error e
    | _ => Except.error "Unknown CLType tag"

/-- Parse a serialized CLType. -/
def parseClType (bs : List Nat) : Except String (CLTypeM × List Nat) :=
  parseClTypeGo (bs.length + 1) bs

/-- Parse `n` map entries with the given key and value parsers. -/
def parseMapEntries (pk pv : List Nat → Except String (CLValue × List Nat)) :
    Nat → List Nat → Except String (List (CLValue × CLValue) × List Nat)
  | 0, bs => Except.ok ([], bs)
  | n + 1, bs =>
    match pk bs with
    | Except.error e => Except.error e
    | Except.ok (k, r1) =>
      match pv r1 with
      | Except.error e => Except.error e
      | Except.ok (v, r2) =>
        match parseMapEntries pk pv n r2 with
        | Except.ok (es, r3) => Except.ok ((k, v) :: es, r3)
        | Except.error e => Except.error e

/-- Parse the value bytes of a given CLType: a string is a `u32` length plus
UTF-8 bytes, a `u8` one byte, an option a 0/1 tag plus inner value, a map a
`u32` count plus that many key-value pairs. -/
def parseValue : CLTypeM → List Nat → Except String (CLValue × List Nat)
  | CLTypeM.string, bs =>
    match readU32 bs with
    | Except.error e => Except.error e
    | Except.ok (n, r) =>
      match takeExact n r with
      | Except.error e => Except.error e
      | Except.ok (sb, r2) => Except.ok (CLValue.str (utf8DecodeStr sb), r2)
  | CLTypeM.u8, bs =>
    match bs with
    | b :: r => Except.ok (CLValue.u8 b, r)
    | [] => Except.error "Early end of stream"
  | CLTypeM.unit, bs => Except.ok (CLValue.unit, bs)
  | CLTypeM.option t, bs =>
    match bs with
    | 0 :: r => Except.ok (CLValue.opt none, r)
    | 1 :: r =>
      match parseValue t r with
      | Except.ok (v, r2) => Except.ok (CLValue.opt (some v), r2)
      | Except.error e => Except.error e
    | _ => Except.error "Formatting error"
  | CLTypeM.map kt vt, bs =>
    match readU32 bs with
    | Except.error e => Except.error e
    | Except.ok (n, r) =>
      match parseMapEntries (parseValue kt) (parseValue vt) n r with
      | Except.ok (es, r2) => Except.ok (CLValue.map es, r2)
      | Except.error e => Except.error e

/-- Model of `CLValueParsers.fromBytesWithType`: `u32` length prefix, value
bytes, serialized type; decode the value bytes at that type. -/
def fromBytesWithType (rawBytes : List Nat) : Except String CLValue :=
  match readU32 rawBytes with
  | Except.error e => Except.error e
  | Except.ok (n, r) =>
    match takeExact n r with
    | Except.error e => Except.error e
    | Except.ok (valueBytes, typeBytes) =>
      match parseClType typeBytes with
      | Except.error e => Except.error e
      | Except.ok (t, _) =>
        match parseValue t valueBytes with
        | Except.error e => Except.error e
        | Except.ok (v, _) => Except.ok v

/-! ## The `parseEvent` data model -/

/-- The JavaScript `parsed` property of a `WriteCLValue` record distinguishes
three states: present and literally `null`, absent (`undefined`), or present
with some non-null value (kept here as its JSON rendering). -/
inductive ParsedField
  | null : ParsedField
  | absent : ParsedField
  | nonNull : String → ParsedField
deriving DecidableEq

/-- A `WriteCLValue` transform payload: hex-encoded bytes plus the `parsed`
property. -/
structure WriteCLValueRec where
  bytes : String
  parsed : ParsedField

/-- A transform's tagged payload: either it has the `WriteCLValue` property or
it is some other transform (named by its tag). -/
inductive TransformPayload
  | writeCLValue : WriteCLValueRec → TransformPayload
  | other : String → TransformPayload

/-- One entry of `execution_result.Success.effect.transforms`. -/
structure TransformEntry where
  key : String
  transform : TransformPayload

/-- `execution_result`: the `Failure` component (its `error_message` when
present) and the `Success` component (its `effect.transforms` when present). -/
structure ExecutionResult where
  Failure : Option String
  Success : Option (List TransformEntry)

/-- `body.DeployProcessed` of a deploy-processed event. -/
structure DeployProcessedData where
  execution_result : ExecutionResult

/-- `body` of a deploy-processed event. -/
structure EventBody where
  DeployProcessed : DeployProcessedData

/-- The raw payload handed to `parseEvent`. -/
structure EventPayload where
  body : EventBody

/-- The subscription argument of `parseEvent`: `contractPackageHash`,
`eventNames`, `eventsURef` (source lines 129-133). -/
structure EventSub where
  contractPackageHash : String
  eventNames : List String
  eventsURef : String

/-- One extracted event, `{ name: event.value(), clValue }` (source line 170). -/
structure FoundEvent where
  name : String
  clValue : CLValue

/-- The value `parseEvent` returns: `failure e` is `{error: e, success: false}`
(source lines 137-140), `done s d` is `{error: null, success: s, data: d}`
(source line 177). -/
inductive ParseResult
  | failure : String → ParseResult
  | done : Bool → List FoundEvent → ParseResult

/-- Is the `parsed` property literally `null` (the `=== null` test of source
line 149). -/
def parsedIsNull : ParsedField → Bool
  | ParsedField.null => true
  | _ => false

/-- Model of `CLMap.get(CLValueBuilder.string(k))`: the first entry whose key
is the string `k` (a non-string key never equals a string key). -/
def mapGet (es : List (CLValue × CLValue)) (k : String) : Option CLValue :=
  match es with
  | [] => none
  | (ek, ev) :: rest =>
    match ek with
    | CLValue.str s => if s = k then some ev else mapGet rest k
    | _ => mapGet rest k

/-- The string content of a value, when it is a string (`v.value()` compared
against or used as a string; a non-string never strictly equals a string). -/
def clStrVal : CLValue → Option String
  | CLValue.str s => some s
  | _ => none

/-- The field checks of source lines 156-171, in the evaluation order of the
`&&` chain: `event_id` present, re-derived dictionary key equal to the
transform's `key`, `contract_package_hash` present and equal to the
subscription's, `event_type` present and among the subscribed names.  A
surviving candidate appends `{name, clValue}`.  A non-string `event_id` makes
`Buffer.from` throw inside `getDictionaryKeyHash`; an invalid `eventsURef`
makes `CLURef.fromFormattedStr` throw. -/
def checkFields (sub : EventSub) (acc : List FoundEvent) (key : String)
    (es : List (CLValue × CLValue)) : Except String (List FoundEvent) :=
  match mapGet es "event_id" with
  | none => Except.ok acc
  | some idv =>
    match clStrVal idv with
    | none => Except.error "TypeError: first argument must be a string"
    | some ids =>
      match getDictionaryKeyHash sub.eventsURef ids with
      | Except.error e => Except.error e
      | Except.ok k =>
        if k = key then
          match mapGet es "contract_package_hash" with
          | none => Except.ok acc
          | some hv =>
            match clStrVal hv with
            | none => Except.ok acc
            | some hs =>
              if hs = sub.contractPackageHash then
                match mapGet es "event_type" with
                | none => Except.ok acc
                | some ev =>
                  match clStrVal ev with
                  | none => Except.ok acc
                  | some en =>
                    if en ∈ sub.eventNames then
                      Except.ok (acc ++ [FoundEvent.mk en (CLValue.map es)])
                    else Except.ok acc
              else Except.ok acc
        else Except.ok acc

/-- One step of the `transforms.reduce` callback (source lines 145-175): the
candidate gate (`key` starts with `"dictionary"`, payload is a `WriteCLValue`,
`parsed` is literally `null`), then hex decode, typed-value decode (a decode
error throws, because of `.unwrap()` on line 153), the some-Option and CLMap
shape checks (silently skipped when they fail), then the field checks. -/
def processTransform (sub : EventSub) (acc : List FoundEvent) (t : TransformEntry) :
    Except String (List FoundEvent) :=
  match t.transform with
  | TransformPayload.other _ => Except.ok acc
  | TransformPayload.writeCLValue w =>
    if strStartsWith t.key "dictionary" && parsedIsNull w.parsed then
      match fromBytesWithType (bufferFromHex w.bytes) with
      | Except.error e => Except.error e
      | Except.ok v =>
        match v with
        | CLValue.opt (some inner) =>
          match inner with
          | CLValue.map es => checkFields sub acc t.key es
          | _ => Except.ok acc
        | _ => Except.ok acc
    else Except.ok acc

/-- The `reduce` over the transform list: a thrown exception aborts the whole
scan. -/
def scanTransforms (sub : EventSub) (acc : List FoundEvent) :
    List TransformEntry → Except String (List FoundEvent)
  | [] => Except.ok acc
  | t :: rest =>
    match processTransform sub acc t with
    | Except.error e => Except.error e
    | Except.ok acc2 => scanTransforms sub acc2 rest

/-- Embedding of `parseEvent` (source lines 128-179): a truthy `Failure`
returns `{error: message, success: false}` at once; otherwise the transforms of
`Success.effect` are scanned and the result is
`{error: null, success: !!events.length, data: events}`.  A missing `Success`
would make the property access throw. -/
def parseEvent (sub : EventSub) (value : EventPayload) : Except String ParseResult :=
  match value.body.DeployProcessed.execution_result.Failure with
  | some msg => Except.ok (ParseResult.failure msg)
  | none =>
    match value.body.DeployProcessed.execution_result.Success with
    | none => Except.error "TypeError: cannot read properties of undefined"
    | some transforms =>
      match scanTransforms sub [] transforms with
      | Except.error e => Except.error e
      | Except.ok evs => Except.ok (ParseResult.done (evs.length != 0) evs)

/-! ## Concrete inputs for witnesses and counterexamples -/

/-- Little-endian `u32` serialization (used to build wire-format test bytes). -/
def u32le (n : Nat) : List Nat := [n % 256, n / 256 % 256, n / 65536 % 256, n / 16777216 % 256]

/-- Wire serialization of a CLString: `u32` byte length plus UTF-8 bytes. -/
def serString (s : String) : List Nat := u32le (strBytes s).length ++ strBytes s

/-- A valid formatted seed reference whose raw address is 32 bytes of `0x01`. -/
def c1uref : String :=
  "uref-0101010101010101010101010101010101010101010101010101010101010101-001"

/-- The raw address bytes of `c1uref`. -/
def c1bytes : List Nat := List.replicate 32 1

/-- A valid formatted seed reference whose raw address is 32 zero bytes. -/
def c3uref : String :=
  "uref-0000000000000000000000000000000000000000000000000000000000000000-007"

/-- A contract package hash string for the end-to-end example. -/
def c3H : String := "0123456789abcdef0123456789abcdef0123456789abcdef0123456789abcdef"

/-- The fields of the example event map, in wire order. -/
def c3pairs : List (String × String) :=
  [("contract_package_hash", c3H), ("event_type", "cep47_mint_one"), ("event_id", "42")]

/-- Wire bytes of the example value: a some-Option wrapping a three-entry map. -/
def c3valueBytes : List Nat :=
  1 :: (u32le c3pairs.length ++ c3pairs.flatMap (fun p => serString p.1 ++ serString p.2))

/-- Full `fromBytesWithType` input: length prefix, value bytes, then the type
`Option(Map(String, String))` = tags `[13, 17, 10, 10]`. -/
def c3rawBytes : List Nat := u32le c3valueBytes.length ++ c3valueBytes ++ [13, 17, 10, 10]

/-- The dictionary key derived from `c3uref` and event id `"42"`. -/
def c3key : String :=
  match getDictionaryKeyHash c3uref "42" with
  | Except.ok s => s
  | Except.error _ => ""

/-- The subscription of the end-to-end example. -/
def c3sub : EventSub := ⟨c3H, ["cep47_mint_one"], c3uref⟩

/-- The example transform: stored at the derived key, with unparsed bytes. -/
def c3transform : TransformEntry :=
  ⟨c3key, TransformPayload.writeCLValue ⟨toHex c3rawBytes, ParsedField.null⟩⟩

/-- A successful payload whose only transform is the example event write. -/
def c3payload : EventPayload := ⟨⟨⟨⟨none, some [c3transform]⟩⟩⟩⟩

/-- The decoded entry list of the example event map. -/
def c3entriesCL : List (CLValue × CLValue) :=
  c3pairs.map (fun p => (CLValue.str p.1, CLValue.str p.2))

/-- The decoded event map of the end-to-end example. -/
def c3map : CLValue := CLValue.map c3entriesCL

/-- An unrelated dictionary key (not the derived one) for the provenance test. -/
def c4key : String :=
  "dictionary-ffffffffffffffffffffffffffffffffffffffffffffffffffffffffffffffff"

/-- The example event write stored under the unrelated key `c4key`. -/
def c4transform : TransformEntry :=
  ⟨c4key, TransformPayload.writeCLValue ⟨toHex c3rawBytes, ParsedField.null⟩⟩

/-- A subscription for the decode-error counterexample (its content is
irrelevant: the throw happens before any field check). -/
def c2sub : EventSub := ⟨"p", ["cep47_mint_one"], c1uref⟩

/-- A successful payload holding one candidate transform whose bytes are empty,
so the typed-value decode fails. -/
def c2payload : EventPayload :=
  ⟨⟨⟨⟨none, some [⟨"dictionary-feed", TransformPayload.writeCLValue ⟨"", ParsedField.null⟩⟩]⟩⟩⟩⟩

/-- Wire bytes decoding to the plain CLString `"hi"` (not an Option). -/
def c2strRaw : List Nat := u32le (serString "hi").length ++ serString "hi" ++ [10]

/-- A candidate transform whose bytes decode to a non-Option value. -/
def c2wskip : TransformEntry :=
  ⟨"dictionary-feed", TransformPayload.writeCLValue ⟨toHex c2strRaw, ParsedField.null⟩⟩

/-- A candidate transform with undecodable (empty) bytes. -/
def c2wbad : TransformEntry :=
  ⟨"dictionary-feed", TransformPayload.writeCLValue ⟨"", ParsedField.null⟩⟩

/-- Subscription for the C5 witness. -/
def c5sub : EventSub := ⟨"h", ["cep47_mint_one"], c3uref⟩

/-- A payload whose execution result carries a truthy `Failure` with message
`"Out of gas"`, and also a `Success` whose only transform would throw if it
were ever scanned. -/
def c5payload : EventPayload :=
  ⟨⟨⟨⟨some "Out of gas",
      some [⟨"dictionary-aa", TransformPayload.writeCLValue ⟨"", ParsedField.null⟩⟩]⟩⟩⟩⟩

/-- Subscription for the C10 witness. -/
def c10sub : EventSub := ⟨"h", ["cep47_burn_one"], c3uref⟩

/-- A payload carrying both a `Failure` component and a `Success` component. -/
def c10payload : EventPayload :=
  ⟨⟨⟨⟨some "User error: 1", some [c3transform]⟩⟩⟩⟩

/-- Subscription for the C6 counterexample and witness. -/
def c6sub : EventSub := ⟨"h", ["transfer"], c3uref⟩

/-- A successful payload with a candidate transform whose bytes are a lone
`0xff`, too short for the length prefix, so the decode fails. -/
def c6payload : EventPayload :=
  ⟨⟨⟨⟨none, some [⟨"dictionary-aa", TransformPayload.writeCLValue ⟨"ff", ParsedField.null⟩⟩]⟩⟩⟩⟩

/-- A successful payload none of whose transform keys starts with
`"dictionary"`. -/
def c6wpayload : EventPayload :=
  ⟨⟨⟨⟨none,
      some [⟨"balance-000", TransformPayload.other "AddUInt512"⟩,
            ⟨"deploy-aa", TransformPayload.writeCLValue ⟨"00", ParsedField.null⟩⟩]⟩⟩⟩⟩

/-- Subscription for the C9 witness. -/
def c9sub : EventSub := ⟨"h", ["cep47_mint_one"], c3uref⟩

/-! ## General lemmas about the digest rendering -/

/-- The digest of `blake2b256` always has 32 bytes. -/
theorem blake2b256_length (x : List Nat) : (blake2b256 x).length = 32 := by
  simp [blake2b256, wordBytes]

/-- Every byte of `wordBytes` is below 256. -/
theorem wordBytes_lt (w : Nat) : ∀ b ∈ wordBytes w, b < 256 := by
  intro b hb
  simp only [wordBytes, List.mem_cons, List.not_mem_nil, or_false] at hb
  rcases hb with rfl | rfl | rfl | rfl | rfl | rfl | rfl | rfl <;> omega

/-- Every byte of a `blake2b256` digest is below 256. -/
theorem blake2b256_bytes_lt (x : List Nat) : ∀ b ∈ blake2b256 x, b < 256 := by
  intro b hb
  rw [show blake2b256 x
      = wordBytes (blakeLoop blake2bInitH 0 (chunk128 x)).h0
        ++ (wordBytes (blakeLoop blake2bInitH 0 (chunk128 x)).h1
        ++ (wordBytes (blakeLoop blake2bInitH 0 (chunk128 x)).h2
        ++ wordBytes (blakeLoop blake2bInitH 0 (chunk128 x)).h3)) from rfl] at hb
  simp only [List.mem_append] at hb
  rcases hb with hb | hb | hb | hb <;> exact wordBytes_lt _ b hb

/-- A hex digit of a value below 16 is one of `0-9a-f`. -/
theorem hexDigit_mem (n : Nat) (h : n < 16) : hexDigit n ∈ ("0123456789abcdef").data := by
  interval_cases n <;> decide

/-- Every character `toHex` produces from genuine bytes is a lowercase hex
digit. -/
theorem toHex_chars (bs : List Nat) (hb : ∀ b ∈ bs, b < 256) :
    ∀ c ∈ (toHex bs).data, c ∈ ("0123456789abcdef").data := by
  intro c hc
  rw [show (toHex bs).data
      = bs.flatMap (fun b => [hexDigit (b / 16), hexDigit (b % 16)]) from rfl] at hc
  simp only [List.mem_flatMap, List.mem_cons, List.not_mem_nil, or_false] at hc
  obtain ⟨b, hbmem, hcc⟩ := hc
  have hblt := hb b hbmem
  rcases hcc with rfl | rfl
  · exact hexDigit_mem _ (by omega)
  · exact hexDigit_mem _ (by omega)

/-! ## Claim theorems -/

/-- C1: for every syntactically valid formatted seed-reference string and every
event-id string, `getDictionaryKeyHash` returns the string `"dictionary-"`
followed by the lowercase hexadecimal rendering of the 32-byte BLAKE2b digest
of the seed reference's raw identifier bytes concatenated with the raw bytes of
the event id — with no separator and no length prefix — exactly the algorithm
the specification describes (`deriveKeySpecAlg`). -/
theorem claim_c1_derive_key_spec (seedRef eventId : String) (bs : List Nat)
    (h : urefFromFormattedStr seedRef = Except.ok bs) :
    getDictionaryKeyHash seedRef eventId = Except.ok (deriveKeySpecAlg bs eventId) ∧
    (blake2b256 (bs ++ strBytes eventId)).length = 32 ∧
    ∀ c ∈ (toHex (blake2b256 (bs ++ strBytes eventId))).data,
      c ∈ ("0123456789abcdef").data := by
  refine ⟨?_, blake2b256_length _, toHex_chars _ (blake2b256_bytes_lt _)⟩
  unfold getDictionaryKeyHash deriveKeySpecAlg
  rw [h]

/-- Witness for C1 at the concrete reference `c1uref` and event id `"42"`. -/
theorem claim_c1_derive_key_spec_witness :
    urefFromFormattedStr c1uref = Except.ok c1bytes ∧
    (getDictionaryKeyHash c1uref "42" = Except.ok (deriveKeySpecAlg c1bytes "42") ∧
     (blake2b256 (c1bytes ++ strBytes "42")).length = 32 ∧
     ∀ c ∈ (toHex (blake2b256 (c1bytes ++ strBytes "42"))).data,
       c ∈ ("0123456789abcdef").data) :=
  ⟨by rfl, claim_c1_derive_key_spec c1uref "42" c1bytes (by rfl)⟩

/-- C5: whenever the execution outcome signals failure with message `m`,
`parseEvent` returns exactly `{error: m, success: false}` no matter what the
`Success` component holds — the transform list is never scanned. -/
theorem claim_c5_failure_short_circuit (sub : EventSub) (p : EventPayload) (m : String)
    (hf : p.body.DeployProcessed.execution_result.Failure = some m) :
    parseEvent sub p = Except.ok (ParseResult.failure m) := by
  unfold parseEvent
  rw [hf]

/-- Witness for C5: a failure payload with message `"Out of gas"` (whose
`Success` transform would throw if it were ever scanned) yields exactly
`{error: "Out of gas", success: false}`. -/
theorem claim_c5_failure_short_circuit_witness :
    c5payload.body.DeployProcessed.execution_result.Failure = some "Out of gas" ∧
    parseEvent c5sub c5payload = Except.ok (ParseResult.failure "Out of gas") :=
  ⟨rfl, claim_c5_failure_short_circuit c5sub c5payload "Out of gas" rfl⟩

/-- C8: both `parseEvent` and `getDictionaryKeyHash` are deterministic pure
functions of their inputs — re-running either on the same input yields an
identical result (in this stateless embedding, definitional reflexivity). -/
theorem claim_c8_determinism :
    (∀ (sub : EventSub) (p : EventPayload), parseEvent sub p = parseEvent sub p) ∧
    (∀ (seedRef eventId : String),
      getDictionaryKeyHash seedRef eventId = getDictionaryKeyHash seedRef eventId) :=
  ⟨fun _ _ => rfl, fun _ _ => rfl⟩

/-- C9: a `WriteCLValue` transform is a candidate only when its `parsed` field
is literally `null`; a record whose `parsed` property is absent (`undefined`)
or holds any non-null value is excluded from candidacy, leaving the
accumulator untouched. -/
theorem claim_c9_parsed_strictly_null (sub : EventSub) (acc : List FoundEvent)
    (key : String) (w : WriteCLValueRec) (h : w.parsed ≠ ParsedField.null) :
    processTransform sub acc ⟨key, TransformPayload.writeCLValue w⟩ = Except.ok acc := by
  have hp : parsedIsNull w.parsed = false := by
    cases hw : w.parsed with
    | null => exact absurd hw h
    | absent => rfl
    | nonNull s => rfl
  simp [processTransform, hp]

/-- Witness for C9: a dictionary-keyed `WriteCLValue` with `parsed` absent is
skipped, exactly like one with a non-null `parsed`. -/
theorem claim_c9_parsed_strictly_null_witness :
    processTransform c9sub []
      ⟨"dictionary-aa", TransformPayload.writeCLValue ⟨"", ParsedField.absent⟩⟩
      = Except.ok [] ∧
    processTransform c9sub []
      ⟨"dictionary-aa", TransformPayload.writeCLValue ⟨"", ParsedField.nonNull "0"⟩⟩
      = Except.ok [] :=
  ⟨claim_c9_parsed_strictly_null c9sub [] "dictionary-aa" ⟨"", ParsedField.absent⟩
      (fun hh => ParsedField.noConfusion hh),
   claim_c9_parsed_strictly_null c9sub [] "dictionary-aa" ⟨"", ParsedField.nonNull "0"⟩
      (fun hh => ParsedField.noConfusion hh)⟩

/-- C10: when the execution result carries both a `Failure` and a `Success`
component, the `Failure` branch is checked first and wins: `parseEvent` returns
the failure variant and the `Success` transforms are never scanned. -/
theorem claim_c10_failure_precedence (sub : EventSub) (p : EventPayload) (m : String)
    (ts : List TransformEntry)
    (hf : p.body.DeployProcessed.execution_result.Failure = some m)
    (_hs : p.body.DeployProcessed.execution_result.Success = some ts) :
    parseEvent sub p = Except.ok (ParseResult.failure m) := by
  unfold parseEvent
  rw [hf]

/-- Witness for C10: a payload with both components present returns the failure
variant. -/
theorem claim_c10_failure_precedence_witness :
    c10payload.body.DeployProcessed.execution_result.Failure = some "User error: 1" ∧
    c10payload.body.DeployProcessed.execution_result.Success = some [c3transform] ∧
    parseEvent c10sub c10payload = Except.ok (ParseResult.failure "User error: 1") :=
  ⟨rfl, rfl,
   claim_c10_failure_precedence c10sub c10payload "User error: 1" [c3transform] rfl rfl⟩

/-! ## Case analysis of one reduce step -/

/-- A value whose `clStrVal` is a string is that string. -/
theorem clStrVal_some (v : CLValue) (s : String) (h : clStrVal v = some s) :
    v = CLValue.str s := by
  cases v with
  | str t => simp [clStrVal] at h; rw [h]
  | u8 n => simp [clStrVal] at h
  | unit => simp [clStrVal] at h
  | opt o => simp [clStrVal] at h
  | map es => simp [clStrVal] at h

/-- The field-check stage either throws, leaves the accumulator untouched, or
appends exactly one event built from the decoded map, whose name is the map's
`event_type` string. -/
theorem checkFields_cases (sub : EventSub) (acc : List FoundEvent) (key : String)
    (es : List (CLValue × CLValue)) :
    (∃ e, checkFields sub acc key es = Except.error e) ∨
    checkFields sub acc key es = Except.ok acc ∨
    ∃ s, checkFields sub acc key es = Except.ok (acc ++ [FoundEvent.mk s (CLValue.map es)])
      ∧ mapGet es "event_type" = some (CLValue.str s) := by
  unfold checkFields
  repeat' split
  all_goals try exact Or.inl ⟨_, rfl⟩
  all_goals try exact Or.inr (Or.inl rfl)
  rename_i x1 ev hev x0 en hen hmem
  exact Or.inr (Or.inr ⟨en, rfl, by rw [hev, clStrVal_some _ _ hen]⟩)

/-- One reduce step either throws, leaves the accumulator untouched, or appends
exactly one event at the end, so the result preserves the original transform
order. -/
theorem processTransform_cases (sub : EventSub) (acc : List FoundEvent) (t : TransformEntry) :
    (∃ e, processTransform sub acc t = Except.error e) ∨
    processTransform sub acc t = Except.ok acc ∨
    ∃ es s, processTransform sub acc t = Except.ok (acc ++ [FoundEvent.mk s (CLValue.map es)])
      ∧ mapGet es "event_type" = some (CLValue.str s) := by
  rcases t with ⟨key, tf⟩
  cases tf with
  | other tag => exact Or.inr (Or.inl rfl)
  | writeCLValue w =>
    simp only [processTransform]
    repeat' split
    all_goals try exact Or.inl ⟨_, rfl⟩
    all_goals try exact Or.inr (Or.inl rfl)
    rename_i es heqv
    rcases checkFields_cases sub acc key es with h | h | ⟨s, h1, h2⟩
    · exact Or.inl h
    · exact Or.inr (Or.inl h)
    · exact Or.inr (Or.inr ⟨es, s, h1, h2⟩)

/-- A transform whose step leaves the accumulator unchanged is skipped: the
scan continues over the rest of the list. -/
theorem scanTransforms_skip (sub : EventSub) (acc : List FoundEvent) (t : TransformEntry)
    (rest : List TransformEntry) (h : processTransform sub acc t = Except.ok acc) :
    scanTransforms sub acc (t :: rest) = scanTransforms sub acc rest := by
  simp only [scanTransforms, h]

/-- A transform whose step throws aborts the whole scan. -/
theorem scanTransforms_throw (sub : EventSub) (acc : List FoundEvent) (t : TransformEntry)
    (rest : List TransformEntry) (e : String)
    (h : processTransform sub acc t = Except.error e) :
    scanTransforms sub acc (t :: rest) = Except.error e := by
  simp only [scanTransforms, h]

/-- A candidate whose bytes decode successfully but not to a some-Option
wrapping a map is silently skipped. -/
theorem processTransform_shape_skip (sub : EventSub) (acc : List FoundEvent)
    (t : TransformEntry) (w : WriteCLValueRec) (v : CLValue)
    (htf : t.transform = TransformPayload.writeCLValue w)
    (hdec : fromBytesWithType (bufferFromHex w.bytes) = Except.ok v)
    (hshape : ∀ es, v ≠ CLValue.opt (some (CLValue.map es))) :
    processTransform sub acc t = Except.ok acc := by
  rcases t with ⟨key, tf⟩
  have htf2 : tf = TransformPayload.writeCLValue w := htf
  subst htf2
  simp only [processTransform]
  split
  · rw [hdec]
    cases v with
    | opt o =>
      cases o with
      | none => rfl
      | some inner =>
        cases inner with
        | map es => exact absurd rfl (hshape es)
        | str s => rfl
        | u8 n => rfl
        | unit => rfl
        | opt o2 => rfl
    | str s => rfl
    | u8 n => rfl
    | unit => rfl
    | map es => rfl
  · rfl

/-- A candidate whose bytes fail the typed-value decode makes the step throw
(the `.unwrap()` of source line 153). -/
theorem processTransform_decode_throw (sub : EventSub) (acc : List FoundEvent)
    (t : TransformEntry) (w : WriteCLValueRec) (e : String)
    (htf : t.transform = TransformPayload.writeCLValue w)
    (hkey : strStartsWith t.key "dictionary" = true)
    (hparsed : w.parsed = ParsedField.null)
    (hdec : fromBytesWithType (bufferFromHex w.bytes) = Except.error e) :
    processTransform sub acc t = Except.error e := by
  rcases t with ⟨key, tf⟩
  have htf2 : tf = TransformPayload.writeCLValue w := htf
  subst htf2
  have hkey2 : strStartsWith key "dictionary" = true := hkey
  simp only [processTransform, hkey2, hparsed, parsedIsNull, Bool.and_self, if_true]
  rw [hdec]

/-- Scanning a list none of whose keys starts with `"dictionary"` returns the
accumulator unchanged. -/
theorem scanTransforms_no_dict (sub : EventSub) :
    ∀ (ts : List TransformEntry) (acc : List FoundEvent),
      (∀ t ∈ ts, strStartsWith t.key "dictionary" = false) →
      scanTransforms sub acc ts = Except.ok acc := by
  intro ts
  induction ts with
  | nil => intro acc h; rfl
  | cons t rest ih =>
    intro acc h
    have ht : strStartsWith t.key "dictionary" = false := h t (List.mem_cons_self t rest)
    have hstep : processTransform sub acc t = Except.ok acc := by
      rcases t with ⟨key, tf⟩
      cases tf with
      | other tag => rfl
      | writeCLValue w =>
        have ht2 : strStartsWith key "dictionary" = false := ht
        simp [processTransform, ht2]
    rw [scanTransforms_skip sub acc t rest hstep]
    exact ih acc (fun x hx => h x (List.mem_cons_of_mem t hx))

/-- One reduce step preserves the invariant that every accumulated event is a
map-valued record whose name is the map's `event_type` string. -/
theorem goodEventsPreserved (sub : EventSub) (acc acc2 : List FoundEvent) (t : TransformEntry)
    (h : processTransform sub acc t = Except.ok acc2)
    (hacc : ∀ e ∈ acc, ∃ es, e.clValue = CLValue.map es
      ∧ mapGet es "event_type" = some (CLValue.str e.name)) :
    ∀ e ∈ acc2, ∃ es, e.clValue = CLValue.map es
      ∧ mapGet es "event_type" = some (CLValue.str e.name) := by
  rcases processTransform_cases sub acc t with ⟨e, he⟩ | hok | ⟨es, s, hok, hty⟩
  · rw [h] at he; cases he
  · rw [h] at hok
    cases hok
    exact hacc
  · rw [h] at hok
    cases hok
    intro e he
    rcases List.mem_append.mp he with hmem | hmem
    · exact hacc e hmem
    · rcases List.mem_singleton.mp hmem with rfl
      exact ⟨es, rfl, hty⟩

/-- The whole scan preserves the accumulated-event invariant. -/
theorem scanTransformsGood (sub : EventSub) :
    ∀ (ts : List TransformEntry) (acc evs : List FoundEvent),
      (∀ e ∈ acc, ∃ es, e.clValue = CLValue.map es
        ∧ mapGet es "event_type" = some (CLValue.str e.name)) →
      scanTransforms sub acc ts = Except.ok evs →
      ∀ e ∈ evs, ∃ es, e.clValue = CLValue.map es
        ∧ mapGet es "event_type" = some (CLValue.str e.name) := by
  intro ts
  induction ts with
  | nil =>
    intro acc evs hacc h
    cases h
    exact hacc
  | cons t rest ih =>
    intro acc evs hacc h
    simp only [scanTransforms] at h
    cases hp : processTransform sub acc t with
    | error e => rw [hp] at h; cases h
    | ok acc2 =>
      rw [hp] at h
      exact ih acc2 evs (goodEventsPreserved sub acc acc2 t hp hacc) h

/-- C2 counterexample: a successful payload with a single candidate transform
whose bytes are malformed (empty, so the typed-value decode fails) makes
`parseEvent` throw — it does not return a normal result, so a per-candidate
decode error IS fatal to the whole extraction, refuting the claim as stated. -/
theorem claim_c2_counterexample :
    parseEvent c2sub c2payload = Except.error "Early end of stream" := by rfl

/-- C2 amended: a candidate whose bytes decode successfully but to an
unexpected shape (anything other than a some-Option wrapping a map) is
silently skipped and the scan continues over the remaining transforms; but a
candidate whose bytes fail the typed-value decode aborts the whole extraction
with a thrown error (the `.unwrap()` of source line 153). -/
theorem claim_c2_amended :
    (∀ (sub : EventSub) (acc : List FoundEvent) (t : TransformEntry) (w : WriteCLValueRec)
        (v : CLValue) (rest : List TransformEntry),
      t.transform = TransformPayload.writeCLValue w →
      fromBytesWithType (bufferFromHex w.bytes) = Except.ok v →
      (∀ es, v ≠ CLValue.opt (some (CLValue.map es))) →
      scanTransforms sub acc (t :: rest) = scanTransforms sub acc rest) ∧
    (∀ (sub : EventSub) (acc : List FoundEvent) (t : TransformEntry) (w : WriteCLValueRec)
        (e : String) (rest : List TransformEntry),
      t.transform = TransformPayload.writeCLValue w →
      strStartsWith t.key "dictionary" = true →
      w.parsed = ParsedField.null →
      fromBytesWithType (bufferFromHex w.bytes) = Except.error e →
      scanTransforms sub acc (t :: rest) = Except.error e) := by
  constructor
  · intro sub acc t w v rest htf hdec hshape
    exact scanTransforms_skip sub acc t rest
      (processTransform_shape_skip sub acc t w v htf hdec hshape)
  · intro sub acc t w e rest htf hkey hparsed hdec
    exact scanTransforms_throw sub acc t rest e
      (processTransform_decode_throw sub acc t w e htf hkey hparsed hdec)

/-- Witness for the amended C2: a dictionary-keyed candidate decoding to the
plain string `"hi"` is skipped and scanning continues, while one with empty
bytes aborts the scan. -/
theorem claim_c2_amended_witness :
    (fromBytesWithType (bufferFromHex (toHex c2strRaw)) = Except.ok (CLValue.str "hi") ∧
     scanTransforms c2sub [] [c2wskip] = scanTransforms c2sub [] []) ∧
    (fromBytesWithType (bufferFromHex "") = Except.error "Early end of stream" ∧
     scanTransforms c2sub [] [c2wbad] = Except.error "Early end of stream") :=
  ⟨⟨by rfl,
    claim_c2_amended.1 c2sub [] c2wskip ⟨toHex c2strRaw, ParsedField.null⟩ (CLValue.str "hi")
      [] rfl (by rfl) (fun _ h => CLValue.noConfusion h)⟩,
   ⟨by rfl,
    claim_c2_amended.2 c2sub [] c2wbad ⟨"", ParsedField.null⟩ "Early end of stream"
      [] rfl (by rfl) rfl (by rfl)⟩⟩

/-- C3: the end-to-end exact match.  For the subscription
`{contractPackageHash: c3H, eventNames: ["cep47_mint_one"], eventsURef: c3uref}`
and a successful payload whose single transform is keyed by
`deriveKey(c3uref, "42")` with unparsed bytes decoding to a some-Option map
with `event_id = "42"`, `contract_package_hash = c3H` and
`event_type = "cep47_mint_one"`, the extraction succeeds with exactly that one
event.  Moreover every reduce step either throws, keeps the accumulator, or
appends one surviving candidate at the end, so surviving candidates appear in
the original transform order. -/
theorem claim_c3_exact_match_and_order :
    parseEvent c3sub c3payload
      = Except.ok (ParseResult.done true [FoundEvent.mk "cep47_mint_one" c3map]) ∧
    ∀ (sub : EventSub) (acc : List FoundEvent) (t : TransformEntry),
      (∃ e, processTransform sub acc t = Except.error e) ∨
      processTransform sub acc t = Except.ok acc ∨
      ∃ ev, processTransform sub acc t = Except.ok (acc ++ [ev]) := by
  constructor
  · rfl
  · intro sub acc t
    rcases processTransform_cases sub acc t with h | h | ⟨es, s, h, _⟩
    · exact Or.inl h
    · exact Or.inr (Or.inl h)
    · exact Or.inr (Or.inr ⟨_, h⟩)

/-- C4: the provenance check.  For a candidate whose decoded map contains
`event_id` (a string), `contract_package_hash` and `event_type`, if the
dictionary key re-derived from the subscription's seed reference and the
`event_id` differs from the transform's original key, the candidate is
discarded: the accumulator is returned unchanged. -/
theorem claim_c4_provenance_check (sub : EventSub) (acc : List FoundEvent)
    (t : TransformEntry) (w : WriteCLValueRec) (es : List (CLValue × CLValue))
    (ids : String) (hv ev : CLValue) (k : String)
    (htf : t.transform = TransformPayload.writeCLValue w)
    (hdec : fromBytesWithType (bufferFromHex w.bytes)
      = Except.ok (CLValue.opt (some (CLValue.map es))))
    (hid : mapGet es "event_id" = some (CLValue.str ids))
    (_hhash : mapGet es "contract_package_hash" = some hv)
    (_hev : mapGet es "event_type" = some ev)
    (hk : getDictionaryKeyHash sub.eventsURef ids = Except.ok k)
    (hne : k ≠ t.key) :
    processTransform sub acc t = Except.ok acc := by
  rcases t with ⟨key, tf⟩
  have htf2 : tf = TransformPayload.writeCLValue w := htf
  subst htf2
  have hne2 : k ≠ key := hne
  simp only [processTransform]
  split
  · rw [hdec]
    show checkFields sub acc key es = Except.ok acc
    simp only [checkFields, hid, clStrVal, hk]
    rw [if_neg hne2]
  · rfl

/-- Witness for C4: the valid example event stored under an unrelated
dictionary key is discarded — a clean miss. -/
theorem claim_c4_provenance_check_witness :
    getDictionaryKeyHash c3sub.eventsURef "42" = Except.ok c3key ∧
    c3key ≠ c4transform.key ∧
    processTransform c3sub [] c4transform = Except.ok [] :=
  ⟨by rfl, by decide,
   claim_c4_provenance_check c3sub [] c4transform ⟨toHex c3rawBytes, ParsedField.null⟩
     c3entriesCL "42" (CLValue.str c3H) (CLValue.str "cep47_mint_one") c3key
     rfl (by rfl) (by rfl) (by rfl) (by rfl) (by rfl) (by decide)⟩

/-- C6 counterexample: a successful payload containing a candidate with
undecodable bytes makes `parseEvent` throw instead of returning
`{error: null, success: _, data: _}`, so the claim does not hold for every
successful payload as stated. -/
theorem claim_c6_counterexample :
    parseEvent c6sub c6payload = Except.error "Early end of stream" := by rfl

/-- C6 amended: for every successful payload whose candidate scan completes
without a thrown decode error, `parseEvent` returns `error = null`, `data`
equal to the scan's accumulator, and `success = true` exactly when the
accumulator is non-empty; in particular, when no transform key starts with
`"dictionary"` the result is exactly `{error: null, success: false, data: []}`. -/
theorem claim_c6_result_assembly :
    (∀ (sub : EventSub) (p : EventPayload) (ts : List TransformEntry) (evs : List FoundEvent),
      p.body.DeployProcessed.execution_result.Failure = none →
      p.body.DeployProcessed.execution_result.Success = some ts →
      scanTransforms sub [] ts = Except.ok evs →
      parseEvent sub p = Except.ok (ParseResult.done (evs.length != 0) evs) ∧
        ((evs.length != 0) = true ↔ evs ≠ [])) ∧
    (∀ (sub : EventSub) (p : EventPayload) (ts : List TransformEntry),
      p.body.DeployProcessed.execution_result.Failure = none →
      p.body.DeployProcessed.execution_result.Success = some ts →
      (∀ t ∈ ts, strStartsWith t.key "dictionary" = false) →
      parseEvent sub p = Except.ok (ParseResult.done false [])) := by
  constructor
  · intro sub p ts evs hF hS hscan
    constructor
    · simp only [parseEvent, hF, hS, hscan]
    · cases evs <;> simp
  · intro sub p ts hF hS hnd
    have hscan := scanTransforms_no_dict sub ts [] hnd
    simp only [parseEvent, hF, hS, hscan]
    rfl

/-- Witness for the amended C6: a successful payload with no dictionary-keyed
transforms yields exactly `{error: null, success: false, data: []}`. -/
theorem claim_c6_result_assembly_witness :
    (parseEvent c6sub c6wpayload
        = Except.ok (ParseResult.done (([] : List FoundEvent).length != 0) []) ∧
      ((([] : List FoundEvent).length != 0) = true ↔ ([] : List FoundEvent) ≠ [])) ∧
    parseEvent c6sub c6wpayload = Except.ok (ParseResult.done false []) :=
  ⟨claim_c6_result_assembly.1 c6sub c6wpayload _ [] rfl rfl (by rfl),
   claim_c6_result_assembly.2 c6sub c6wpayload _ rfl rfl (by decide)⟩

/-- C7 counterexample: a concrete successful extraction produces a data element
that is the record `{name: "cep47_mint_one", clValue: <decoded map>}` of source
line 170 — its second field is `clValue`, not `value` as the claim states. -/
theorem claim_c7_counterexample :
    parseEvent c3sub c3payload
      = Except.ok (ParseResult.done true [FoundEvent.mk "cep47_mint_one" c3map]) ∧
    (FoundEvent.mk "cep47_mint_one" c3map).clValue = c3map ∧
    (FoundEvent.mk "cep47_mint_one" c3map).name = "cep47_mint_one" :=
  ⟨by rfl, rfl, rfl⟩

/-- C7 amended: every element of the data sequence of a successful extraction
is a record with fields `name` and `clValue`, where `clValue` is the decoded
event map and `name` is that map's `event_type` string. -/
theorem claim_c7_data_elements (sub : EventSub) (p : EventPayload) (b : Bool)
    (evs : List FoundEvent)
    (h : parseEvent sub p = Except.ok (ParseResult.done b evs)) :
    ∀ e ∈ evs, ∃ es, e.clValue = CLValue.map es
      ∧ mapGet es "event_type" = some (CLValue.str e.name) := by
  cases hF : p.body.DeployProcessed.execution_result.Failure with
  | some m => simp [parseEvent, hF] at h
  | none =>
    cases hS : p.body.DeployProcessed.execution_result.Success with
    | none => simp [parseEvent, hF, hS] at h
    | some ts =>
      cases hscan : scanTransforms sub [] ts with
      | error e => simp [parseEvent, hF, hS, hscan] at h
      | ok evs2 =>
        simp [parseEvent, hF, hS, hscan] at h
        obtain ⟨hb, hevs⟩ := h
        subst hevs
        exact scanTransformsGood sub ts [] evs2
          (fun e he => absurd he (List.not_mem_nil e)) hscan

/-- Witness for the amended C7 at the end-to-end example's extraction result. -/
theorem claim_c7_data_elements_witness :
    ∃ es, (FoundEvent.mk "cep47_mint_one" c3map).clValue = CLValue.map es
      ∧ mapGet es "event_type"
        = some (CLValue.str (FoundEvent.mk "cep47_mint_one" c3map).name) :=
  claim_c7_data_elements c3sub c3payload true [FoundEvent.mk "cep47_mint_one" c3map]
    (by rfl) (FoundEvent.mk "cep47_mint_one" c3map) (List.mem_singleton.mpr rfl)
